import Mathlib

/-!
Shallow embedding of the TsPath SVG-like path parser
(src/TsPath/TsPath.ts, first revision: the `PathParser` module of
function closures, lines 1-311; identical to src/unnamed/part_000 and to
the compiled src/TsPath/TsPath.js).

Modelling conventions:
* The `TextStream` cursor of the source owns a string and an integer
  position; `Current` yields the character at the position or a null
  sentinel, `MoveNext` advances by one and reports whether a character
  remains.  Only the suffix of the source from the current position is
  observable through `Current`/`MoveNext`, so the cursor is embedded as
  that suffix (a `List Char`); `Current` is `head?` (`none` is the null
  sentinel) and `MoveNext` drops one character and reports whether any
  character is left.
* JavaScript numbers are embedded as `JsNumber`: `NaN` or an exact
  rational.  The scanner only builds plain decimal literals, whose exact
  rational value is what the claims compare; IEEE-754 rounding is
  abstracted away.
* Thrown strings become the error enumeration `ParseError`, one
  constructor per distinct throw site kind.
* The `while` loops of the repeating command grammars and of the
  top-level driver can fail to consume input and hence diverge in the
  source; they are embedded with a fuel parameter, `ParseError.outOfFuel`
  standing for a run that was cut short (a diverging run in JS).
* `String.prototype.toUpperCase` and `trim` are modelled on the ASCII
  alphabet the grammar uses.
-/

set_option maxHeartbeats 4000000

namespace TsPath

/-- A JavaScript number value: `NaN` or an exact rational. -/
inductive JsNumber where
  | nan
  | val (q : ℚ)
deriving DecidableEq, Repr

/-- `Point` from the source: an immutable pair of coordinates. -/
structure Point where
  x : JsNumber
  y : JsNumber
deriving DecidableEq, Repr

/-- `FillRule` enum from the source. -/
inductive FillRule where
  | EvenOdd
  | NonZero
deriving DecidableEq, Repr

/-- The abstract drawing instruction produced by one `CommandFactory.createX`
call (the data captured by the closure the factory returns). -/
inductive PathCommand where
  | SetFillRule (rule : FillRule)
  | MoveTo (p : Point)
  | LineTo (p : Point)
  | CubicCurveTo (cp1 cp2 ep : Point)
  | QuadraticCurveTo (cp ep : Point)
  | ArcTo (center : Point) (radius startAngle endAngle : JsNumber) (counterClockwise : Bool)
  | ClosePath
deriving DecidableEq, Repr

/-- The distinct throw sites of the parser, plus `outOfFuel` for a run of an
embedded loop that was cut short (the source loop would diverge there). -/
inductive ParseError where
  | invalidNumber
  | unexpectedEndOfStream
  | invalidFillRuleValue
  | invalidCommand
  | outOfFuel
deriving DecidableEq, Repr

instance {ε α : Type} [DecidableEq ε] [DecidableEq α] : DecidableEq (Except ε α) := fun x y =>
  match x, y with
  | .error a, .error b =>
    if h : a = b then isTrue (congrArg Except.error h)
    else isFalse fun hc => h (Except.error.inj hc)
  | .ok a, .ok b =>
    if h : a = b then isTrue (congrArg Except.ok h)
    else isFalse fun hc => h (Except.ok.inj hc)
  | .error _, .ok _ => isFalse fun hc => Except.noConfusion hc
  | .ok _, .error _ => isFalse fun hc => Except.noConfusion hc

/-- `TextStream`, embedded as the suffix of the normalized source string from
the current position. -/
abbrev TextStream := List Char

/-- `TextStream.Current`: the character at the current position, or the null
sentinel (`none`) at or past the end. -/
def Current (stream : TextStream) : Option Char :=
  stream.head?

/-- `TextStream.MoveNext`: advance one position; return the new stream and
whether a character remains (`this._char !== null`). -/
def MoveNext (stream : TextStream) : TextStream × Bool :=
  (stream.tail, !stream.tail.isEmpty)

/-- `_wsChars = [" ", "\t"]`. -/
def _wsChars : List Char := [' ', '\t']

/-- `_commandChars = ["M", "L", "C", "Q", "A", "Z"]`. -/
def _commandChars : List Char := ['M', 'L', 'C', 'Q', 'A', 'Z']

/-- `array.indexOf(current) !== -1` where `current` is a one-character string
or the null sentinel (`indexOf` of the sentinel is `-1`). -/
def containsOpt (cs : List Char) (current : Option Char) : Bool :=
  match current with
  | some c => cs.contains c
  | none => false

def isCommandCharacter (current : Option Char) : Bool :=
  containsOpt _commandChars current

def isWhitespaceCharacter (current : Option Char) : Bool :=
  containsOpt _wsChars current

def isNegativeSign (current : Option Char) : Bool :=
  current = some '-'

def isComma (current : Option Char) : Bool :=
  current = some ','

def isDecimal (current : Option Char) : Bool :=
  current = some '.'

/-- `!isNaN(parseInt(current, 10))`: on a one-character string this holds
exactly for the ASCII digits `0`-`9` (and is false on the null sentinel). -/
def isDigit (current : Option Char) : Bool :=
  match current with
  | some c => c.isDigit
  | none => false

/-- `while (isWhitespaceCharacter(stream.Current) && stream.MoveNext()) { }`. -/
def skipWhitespace : TextStream → TextStream
  | [] => []
  | c :: rest =>
    if isWhitespaceCharacter (Current (c :: rest)) then skipWhitespace rest
    else c :: rest

/-- `if (isComma(stream.Current)) stream.MoveNext();`. -/
def skipComma (stream : TextStream) : TextStream :=
  if isComma (Current stream) then (MoveNext stream).1 else stream

/-- whitespace, then one optional comma, then whitespace. -/
def skipArgumentSeparator (stream : TextStream) : TextStream :=
  skipWhitespace (skipComma (skipWhitespace stream))

/-- The inner `readNextDigits` helper of `readNumber`: consume the maximal
run of digits, returning it together with the rest of the stream. -/
def readNextDigits : TextStream → List Char × TextStream
  | [] => ([], [])
  | c :: rest =>
    if isDigit (Current (c :: rest)) then
      let (digits, s') := readNextDigits rest
      (c :: digits, s')
    else ([], c :: rest)

/-- The sign block of `readNumber`: consume one optional minus sign. -/
def readSign (stream : TextStream) : List Char × TextStream :=
  if isNegativeSign (Current stream) then (['-'], (MoveNext stream).1)
  else ([], stream)

/-- The integer-digits block of `readNumber`:
`if (isDigit(stream.Current)) { numStr += readNextDigits(stream); }`. -/
def readIntPart (stream : TextStream) : List Char × TextStream :=
  if isDigit (Current stream) then readNextDigits stream
  else ([], stream)

/-- The exponent block of `readNumber`, entered right after the consumed `E`:
an optional minus sign (the same block of code as the leading sign), then at
least one digit or the `Invalid number` throw. -/
def readExpPart (stream : TextStream) : Except ParseError (List Char × TextStream) :=
  let (sgn, s1) := readSign stream
  if !isDigit (Current s1) then .error .invalidNumber
  else
    let (digits, s2) := readNextDigits s1
    .ok (sgn ++ digits, s2)

/-- The decimal block of `readNumber`: an optional decimal point; if a digit
follows, the fraction digits and then an optional exponent block guarded by
the literal character `E`. -/
def readFracPart (stream : TextStream) : Except ParseError (List Char × TextStream) :=
  if isDecimal (Current stream) then
    let s1 := (MoveNext stream).1
    if isDigit (Current s1) then
      let (digits, s2) := readNextDigits s1
      if Current s2 = some 'E' then
        match readExpPart (MoveNext s2).1 with
        | .error e => .error e
        | .ok (expStr, s3) => .ok ('.' :: digits ++ 'E' :: expStr, s3)
      else .ok ('.' :: digits, s2)
    else .ok (['.'], s1)
  else .ok ([], stream)

/-- `readNumber` up to the final `Number(numStr)` conversion: the accumulated
text `numStr` together with the rest of the stream. -/
def readNumberStr (stream : TextStream) : Except ParseError (List Char × TextStream) :=
  let (sgnStr, s1) := readSign stream
  let (intStr, s2) := readIntPart s1
  match readFracPart s2 with
  | .error e => .error e
  | .ok (fracStr, s3) => .ok (sgnStr ++ intStr ++ fracStr, s3)

/-- Decimal value of a digit run. -/
def digitsToNat (ds : List Char) : ℕ :=
  ds.foldl (fun acc c => acc * 10 + (c.toNat - 48)) 0

/-- Model of the JavaScript `Number(numStr)` conversion on the decimal
literals the scanner accumulates: the empty string converts to `0`; an
optional minus sign, integer digits, an optional fraction part and an
optional `E` exponent part convert to the exact rational value, provided at
least one mantissa digit is present; everything else is `NaN`. -/
def jsStrToNumber (s : List Char) : JsNumber :=
  if s.isEmpty then .val 0
  else
    let (neg, s1) : Bool × List Char :=
      match s with
      | '-' :: rest => (true, rest)
      | _ => (false, s)
    let ip := s1.takeWhile Char.isDigit
    let r1 := s1.dropWhile Char.isDigit
    let (fp, r2) : List Char × List Char :=
      match r1 with
      | '.' :: rest => (rest.takeWhile Char.isDigit, rest.dropWhile Char.isDigit)
      | _ => ([], r1)
    if ip.isEmpty && fp.isEmpty then .nan
    else
      let mantNum : ℤ := (digitsToNat ip : ℤ) * 10 ^ fp.length + (digitsToNat fp : ℤ)
      let mantDen : ℕ := 10 ^ fp.length
      match r2 with
      | [] => .val (mkRat (if neg then -mantNum else mantNum) mantDen)
      | 'E' :: r3 =>
        let (eneg, r4) : Bool × List Char :=
          match r3 with
          | '-' :: rest => (true, rest)
          | _ => (false, r3)
        if r4.isEmpty || !(r4.all Char.isDigit) then .nan
        else
          let expval := digitsToNat r4
          let num := if eneg then mantNum else mantNum * 10 ^ expval
          let den := if eneg then mantDen * 10 ^ expval else mantDen
          .val (mkRat (if neg then -num else num) den)
      | _ => .nan

/-- `readNumber`: scan the literal and convert it with `Number`. -/
def readNumber (stream : TextStream) : Except ParseError (JsNumber × TextStream) :=
  match readNumberStr stream with
  | .error e => .error e
  | .ok (numStr, s1) => .ok (jsStrToNumber numStr, s1)

def readNumberAndSkipSeparator (stream : TextStream) :
    Except ParseError (JsNumber × TextStream) :=
  match readNumber stream with
  | .error e => .error e
  | .ok (num, s1) => .ok (num, skipArgumentSeparator s1)

def readNumberAndSkipWhitespace (stream : TextStream) :
    Except ParseError (JsNumber × TextStream) :=
  match readNumber stream with
  | .error e => .error e
  | .ok (num, s1) => .ok (num, skipWhitespace s1)

def readPoint (stream : TextStream) : Except ParseError (Point × TextStream) :=
  match readNumberAndSkipSeparator stream with
  | .error e => .error e
  | .ok (x, s1) =>
    match readNumber s1 with
    | .error e => .error e
    | .ok (y, s2) => .ok (⟨x, y⟩, s2)

def readPointAndSkipSeparator (stream : TextStream) :
    Except ParseError (Point × TextStream) :=
  match readPoint stream with
  | .error e => .error e
  | .ok (p, s1) => .ok (p, skipArgumentSeparator s1)

def readPointAndSkipWhitespace (stream : TextStream) :
    Except ParseError (Point × TextStream) :=
  match readPoint stream with
  | .error e => .error e
  | .ok (p, s1) => .ok (p, skipWhitespace s1)

/-- A command grammar: fuel for its internal loop, the stream positioned at
the command letter; produces instructions and the rest of the stream. -/
abbrev CommandGrammar :=
  Nat → TextStream → Except ParseError (List PathCommand × TextStream)

/-- The inner `resolveRule` of `parseFillStyleCommand`: `switch` with strict
equality against `0` and `1` (`NaN` matches neither). -/
def resolveRule (num : JsNumber) : Except ParseError FillRule :=
  if num = .val 0 then .ok .EvenOdd
  else if num = .val 1 then .ok .NonZero
  else .error .invalidFillRuleValue

def parseFillStyleCommand : CommandGrammar := fun _ stream =>
  match MoveNext stream with
  | (_, false) => .error .unexpectedEndOfStream
  | (s1, true) =>
    match readNumberAndSkipWhitespace s1 with
    | .error e => .error e
    | .ok (num, s2) =>
      match resolveRule num with
      | .error e => .error e
      | .ok rule => .ok ([.SetFillRule rule], s2)

def parseMoveToCommand : CommandGrammar := fun _ stream =>
  match MoveNext stream with
  | (_, false) => .error .unexpectedEndOfStream
  | (s1, true) =>
    match readPointAndSkipWhitespace (skipWhitespace s1) with
    | .error e => .error e
    | .ok (p, s2) => .ok ([.MoveTo p], s2)

/-- The `while` loop of `parseLineToCommand`. -/
def parseLineToLoop : Nat → TextStream → Except ParseError (List PathCommand × TextStream)
  | 0, _ => .error .outOfFuel
  | fuel + 1, stream =>
    if !isCommandCharacter (Current stream) && (Current stream).isSome then
      match readPointAndSkipWhitespace stream with
      | .error e => .error e
      | .ok (p, s1) =>
        match parseLineToLoop fuel s1 with
        | .error e => .error e
        | .ok (cmds, s2) => .ok (.LineTo p :: cmds, s2)
    else .ok ([], stream)

def parseLineToCommand : CommandGrammar := fun fuel stream =>
  match MoveNext stream with
  | (_, false) => .error .unexpectedEndOfStream
  | (s1, true) => parseLineToLoop fuel (skipWhitespace s1)

/-- The `while` loop of `parseCubicBezierCurveCommand`. -/
def parseCubicLoop : Nat → TextStream → Except ParseError (List PathCommand × TextStream)
  | 0, _ => .error .outOfFuel
  | fuel + 1, stream =>
    if !isCommandCharacter (Current stream) && (Current stream).isSome then
      match readPointAndSkipSeparator stream with
      | .error e => .error e
      | .ok (cp1, s1) =>
        match readPointAndSkipSeparator s1 with
        | .error e => .error e
        | .ok (cp2, s2) =>
          match readPointAndSkipSeparator s2 with
          | .error e => .error e
          | .ok (ep, s3) =>
            match parseCubicLoop fuel s3 with
            | .error e => .error e
            | .ok (cmds, s4) => .ok (.CubicCurveTo cp1 cp2 ep :: cmds, s4)
    else .ok ([], stream)

def parseCubicBezierCurveCommand : CommandGrammar := fun fuel stream =>
  match MoveNext stream with
  | (_, false) => .error .unexpectedEndOfStream
  | (s1, true) => parseCubicLoop fuel (skipWhitespace s1)

/-- The `while` loop of `parseQuadraticBezierCurveCommand`. -/
def parseQuadraticLoop : Nat → TextStream → Except ParseError (List PathCommand × TextStream)
  | 0, _ => .error .outOfFuel
  | fuel + 1, stream =>
    if !isCommandCharacter (Current stream) && (Current stream).isSome then
      match readPointAndSkipSeparator stream with
      | .error e => .error e
      | .ok (cp, s1) =>
        match readPointAndSkipSeparator s1 with
        | .error e => .error e
        | .ok (ep, s2) =>
          match parseQuadraticLoop fuel s2 with
          | .error e => .error e
          | .ok (cmds, s3) => .ok (.QuadraticCurveTo cp ep :: cmds, s3)
    else .ok ([], stream)

def parseQuadraticBezierCurveCommand : CommandGrammar := fun fuel stream =>
  match MoveNext stream with
  | (_, false) => .error .unexpectedEndOfStream
  | (s1, true) => parseQuadraticLoop fuel (skipWhitespace s1)

/-- The `while` loop of `parseEllipticalArcCommand`; the direction flag is
the strict comparison `=== 1` of the scanned number. -/
def parseArcLoop : Nat → TextStream → Except ParseError (List PathCommand × TextStream)
  | 0, _ => .error .outOfFuel
  | fuel + 1, stream =>
    if !isCommandCharacter (Current stream) && (Current stream).isSome then
      match readPointAndSkipSeparator stream with
      | .error e => .error e
      | .ok (center, s1) =>
        match readNumberAndSkipSeparator s1 with
        | .error e => .error e
        | .ok (radius, s2) =>
          match readNumberAndSkipSeparator s2 with
          | .error e => .error e
          | .ok (startAngle, s3) =>
            match readNumberAndSkipSeparator s3 with
            | .error e => .error e
            | .ok (endAngle, s4) =>
              match readNumberAndSkipSeparator s4 with
              | .error e => .error e
              | .ok (ccwNum, s5) =>
                match parseArcLoop fuel s5 with
                | .error e => .error e
                | .ok (cmds, s6) =>
                  .ok (.ArcTo center radius startAngle endAngle (ccwNum = .val 1) :: cmds, s6)
    else .ok ([], stream)

def parseEllipticalArcCommand : CommandGrammar := fun fuel stream =>
  match MoveNext stream with
  | (_, false) => .error .unexpectedEndOfStream
  | (s1, true) => parseArcLoop fuel (skipWhitespace s1)

/-- `parseClosePathCommand` ignores the result of `MoveNext`, so end of input
immediately after `Z` is tolerated. -/
def parseClosePathCommand : CommandGrammar := fun _ stream =>
  .ok ([.ClosePath], skipWhitespace (MoveNext stream).1)

/-- `getCommandParser`: the `commandMappings` record lookup; an absent key is
falsy and throws `Invalid command`. -/
def getCommandParser (command : Option Char) : Except ParseError CommandGrammar :=
  match command with
  | some 'F' => .ok parseFillStyleCommand
  | some 'M' => .ok parseMoveToCommand
  | some 'L' => .ok parseLineToCommand
  | some 'C' => .ok parseCubicBezierCurveCommand
  | some 'Q' => .ok parseQuadraticBezierCurveCommand
  | some 'A' => .ok parseEllipticalArcCommand
  | some 'Z' => .ok parseClosePathCommand
  | _ => .error .invalidCommand

/-- `resolveCommand(validCommands, current)`. -/
def resolveCommand (validCommands : List Char) (current : Option Char) :
    Except ParseError CommandGrammar :=
  if containsOpt validCommands current then getCommandParser current
  else .error .invalidCommand

/-- The `while (true)` loop of `Parse`: resolve a secondary command at the
current character, run it, append its instructions; `continue` while a
command letter is current, otherwise advance once and stop when no character
remains. -/
def parseLoop : Nat → List PathCommand → TextStream → Except ParseError (List PathCommand)
  | 0, _, _ => .error .outOfFuel
  | fuel + 1, commands, stream =>
    match resolveCommand ['M', 'L', 'C', 'Q', 'A', 'Z'] (Current stream) with
    | .error e => .error e
    | .ok p =>
      match p fuel stream with
      | .error e => .error e
      | .ok (newCommands, s1) =>
        if (Current s1).isSome && isCommandCharacter (Current s1) then
          parseLoop fuel (commands ++ newCommands) s1
        else
          match MoveNext s1 with
          | (s2, true) => parseLoop fuel (commands ++ newCommands) s2
          | (_, false) => .ok (commands ++ newCommands)

/-- `String.prototype.toUpperCase` on the ASCII letters the grammar uses
(`Char.toUpper` is exactly the basic-latin case mapping). -/
def jsToUpper (s : List Char) : List Char :=
  s.map Char.toUpper

/-- The character set removed by `String.prototype.trim`, restricted to
ASCII whitespace and line terminators. -/
def trimWsChars : List Char := [' ', '\t', '\n', '\r', '\x0B', '\x0C']

/-- `String.prototype.trim`: remove leading and trailing whitespace. -/
def jsTrim (s : List Char) : List Char :=
  (((s.dropWhile (trimWsChars.contains ·)).reverse.dropWhile (trimWsChars.contains ·)).reverse)

/-- `toUpperCase` at the `String` level, for stating case-insensitivity. -/
def jsToUpperString (s : String) : String :=
  ⟨jsToUpper s.data⟩

/-- `PathParser.Parse`.  An empty path short-circuits to the empty list
(a null path does the same and is not representable for `String`); otherwise
the source is uppercased and trimmed, the initial command must resolve among
`F`, `M`, and then the body loop runs. -/
def Parse (fuel : Nat) (path : String) : Except ParseError (List PathCommand) :=
  if path = "" then .ok []
  else
    let stream : TextStream := jsTrim (jsToUpper path.data)
    match resolveCommand ['F', 'M'] (Current stream) with
    | .error e => .error e
    | .ok p =>
      match p fuel stream with
      | .error e => .error e
      | .ok (commands, s1) => parseLoop fuel commands s1

/-- Split one optional leading minus sign off a character list. -/
def splitSign (s : List Char) : List Char × List Char :=
  if s.head? = some '-' then (['-'], s.tail) else ([], s)

/-- The character list with one optional leading minus sign removed. -/
def stripMinus (s : List Char) : List Char :=
  (splitSign s).2

/-- The computation of `readNumberStr` re-expressed with `takeWhile` and
`dropWhile` for the maximal digit runs; proved equal to `readNumberStr`
below and used as the vehicle for the general scanner theorems. -/
def scanNumber (s : TextStream) : Except ParseError (List Char × TextStream) :=
  let (sgn, s1) := splitSign s
  let ds := s1.takeWhile Char.isDigit
  let r1 := s1.dropWhile Char.isDigit
  if isDecimal (Current r1) then
    let t := r1.tail
    let fs := t.takeWhile Char.isDigit
    let r2 := t.dropWhile Char.isDigit
    if fs.isEmpty then .ok (sgn ++ ds ++ ['.'], t)
    else if Current r2 = some 'E' then
      match readExpPart r2.tail with
      | .error e => .error e
      | .ok (expStr, s3) => .ok (sgn ++ ds ++ ('.' :: fs ++ 'E' :: expStr), s3)
    else .ok (sgn ++ ds ++ ('.' :: fs), r2)
  else .ok (sgn ++ ds, r1)

/-- The exponent part of the number-token language of claim C4: nothing, or
`E`, an optional minus sign and one or more digits. -/
def expPart : List Char → Bool
  | [] => true
  | 'E' :: r => !(stripMinus r).isEmpty && (stripMinus r).all Char.isDigit
  | _ => false

/-- After a decimal point, the spec demands one or more fraction digits and
then an optional exponent part. -/
def fracTailSpec (r : List Char) : Bool :=
  !(r.takeWhile Char.isDigit).isEmpty && expPart (r.dropWhile Char.isDigit)

/-- The token language of claim C4, verbatim:
`'-'? digit* ('.' digit+ ('E' '-'? digit+)?)?`. -/
def numberTokenSpec (s : List Char) : Bool :=
  match (stripMinus s).dropWhile Char.isDigit with
  | [] => true
  | '.' :: r1 => fracTailSpec r1
  | _ => false

/-- What may follow the integer digits of an amended number token: nothing,
or a decimal point followed by nothing, or by one or more fraction digits
and an optional exponent part. -/
def numberTailAmended (X : List Char) : Bool :=
  match X with
  | [] => true
  | '.' :: r1 => r1.isEmpty || fracTailSpec r1
  | _ => false

/-- The amended token language: the scanner also consumes a decimal point
followed by zero fraction digits (the token then ends at the point):
`'-'? digit* ('.' (digit+ ('E' '-'? digit+)?)?)?`. -/
def numberTokenAmended (s : List Char) : Bool :=
  numberTailAmended ((stripMinus s).dropWhile Char.isDigit)

/-- After the maximal fraction-digit run: the letter `E`, an optional minus
sign, and then no digit. -/
def expBadAt (Y : List Char) : Bool :=
  match Y with
  | 'E' :: r3 => !(isDigit (Current (stripMinus r3)))
  | _ => false

/-- After the maximal integer-digit run: a decimal point, at least one
fraction digit, and then a bad exponent. -/
def badExpTail (X : List Char) : Bool :=
  match X with
  | '.' :: r1 => !(r1.takeWhile Char.isDigit).isEmpty && expBadAt (r1.dropWhile Char.isDigit)
  | _ => false

/-- The inputs on which the number scanner throws: after the optional sign
and the maximal integer-digit run, a decimal point, at least one fraction
digit, then `E`, an optional minus sign, and then no digit. -/
def badExponent (s : List Char) : Bool :=
  badExpTail ((stripMinus s).dropWhile Char.isDigit)

/-- The instruction is not a `SetFillRule`. -/
def notFill (c : PathCommand) : Bool :=
  match c with
  | .SetFillRule _ => false
  | _ => true

/-- No `SetFillRule` instruction occurs in the list. -/
def noFill (cmds : List PathCommand) : Bool :=
  cmds.all notFill

/-! ## Helper lemmas -/

theorem splitSign_append (s : List Char) : (splitSign s).1 ++ (splitSign s).2 = s := by
  unfold splitSign
  by_cases h : s.head? = some '-'
  · rw [if_pos h]
    rcases s with _ | ⟨c, t⟩
    · simp at h
    · simp only [List.head?_cons, Option.some.injEq] at h
      subst h; rfl
  · rw [if_neg h]; rfl

theorem readSign_eq_splitSign (s : TextStream) : readSign s = splitSign s := by
  unfold readSign splitSign isNegativeSign Current MoveNext
  by_cases h : s.head? = some '-' <;> simp [h]

theorem readNextDigits_eq (s : TextStream) :
    readNextDigits s = (s.takeWhile Char.isDigit, s.dropWhile Char.isDigit) := by
  induction s with
  | nil => rfl
  | cons c t ih =>
    by_cases h : c.isDigit
    · simp [readNextDigits, Current, isDigit, h, ih]
    · simp [readNextDigits, Current, isDigit, h]

theorem readIntPart_eq (s : TextStream) :
    readIntPart s = (s.takeWhile Char.isDigit, s.dropWhile Char.isDigit) := by
  rcases s with _ | ⟨c, t⟩
  · rfl
  · by_cases h : c.isDigit
    · simp [readIntPart, Current, isDigit, h, readNextDigits_eq]
    · simp [readIntPart, Current, isDigit, h]

theorem isDigit_head_eq (s : TextStream) :
    isDigit (Current s) = !(s.takeWhile Char.isDigit).isEmpty := by
  rcases s with _ | ⟨c, t⟩
  · rfl
  · by_cases h : c.isDigit <;> simp [Current, isDigit, h]

theorem isDigit_headq_eq (s : TextStream) :
    isDigit s.head? = !(s.takeWhile Char.isDigit).isEmpty :=
  isDigit_head_eq s

theorem skipWhitespace_append (ws r : List Char)
    (h : ∀ c ∈ ws, isWhitespaceCharacter (some c) = true) :
    skipWhitespace (ws ++ r) = skipWhitespace r := by
  induction ws with
  | nil => rfl
  | cons c t ih =>
    have hc := h c (List.mem_cons_self c t)
    simp only [List.cons_append, skipWhitespace, Current, List.head?_cons, hc, if_true]
    exact ih fun x hx => h x (List.mem_cons_of_mem _ hx)

theorem skipWhitespace_of_head (r : List Char)
    (h : ∀ c, Current r = some c → isWhitespaceCharacter (some c) = false) :
    skipWhitespace r = r := by
  rcases r with _ | ⟨c, t⟩
  · rfl
  · have hc := h c rfl
    simp [skipWhitespace, Current, hc]

theorem moveNext_fst (s : TextStream) : (MoveNext s).1 = s.tail := rfl

theorem takeWhile_of_all {p : Char → Bool} {l : List Char} (h : l.all p = true) :
    l.takeWhile p = l := by
  induction l with
  | nil => rfl
  | cons c t ih =>
    simp only [List.all_cons, Bool.and_eq_true] at h
    simp [List.takeWhile_cons_of_pos h.1, ih h.2]

theorem dropWhile_of_all {p : Char → Bool} {l : List Char} (h : l.all p = true) :
    l.dropWhile p = [] := by
  induction l with
  | nil => rfl
  | cons c t ih =>
    simp only [List.all_cons, Bool.and_eq_true] at h
    simp [List.dropWhile_cons_of_pos h.1, ih h.2]

theorem eq_cons_of_head? {l : List Char} {c : Char} (h : l.head? = some c) :
    l = c :: l.tail := by
  rcases l with _ | ⟨d, t⟩
  · simp at h
  · simp only [List.head?_cons, Option.some.injEq] at h
    subst h
    rfl

theorem stripMinus_minus (r : List Char) : stripMinus ('-' :: r) = r := rfl

theorem stripMinus_of_head (r : List Char) (h : r.head? ≠ some '-') : stripMinus r = r := by
  unfold stripMinus splitSign
  rw [if_neg h]

theorem stripMinus_splitSign (s : TextStream) (rest : List Char)
    (hrest : rest.head? ≠ some '-') :
    stripMinus ((splitSign s).1 ++ rest) = rest := by
  unfold splitSign
  by_cases hh : s.head? = some '-'
  · rw [if_pos hh]
    exact stripMinus_minus rest
  · rw [if_neg hh]
    rw [show ([] : List Char) ++ rest = rest from List.nil_append rest]
    exact stripMinus_of_head rest hrest

theorem head?_ne_minus_of_all_digit {l : List Char} (h : l.all Char.isDigit = true) :
    l.head? ≠ some '-' := by
  rcases l with _ | ⟨c, t⟩
  · simp
  · simp only [List.all_cons, Bool.and_eq_true] at h
    simp only [List.head?_cons, ne_eq, Option.some.injEq]
    intro hc
    subst hc
    exact absurd h.1 (by decide)

theorem head?_append_ne_minus {ds X : List Char} (hds : ds.all Char.isDigit = true)
    (hX : X.head? ≠ some '-') : (ds ++ X).head? ≠ some '-' := by
  rcases ds with _ | ⟨c, t⟩
  · simpa using hX
  · simp only [List.all_cons, Bool.and_eq_true] at hds
    simp only [List.cons_append, List.head?_cons, ne_eq, Option.some.injEq]
    intro hc
    subst hc
    exact absurd hds.1 (by decide)

theorem readExpPart_eq (u : TextStream) :
    readExpPart u =
      if ((splitSign u).2.takeWhile Char.isDigit).isEmpty then .error .invalidNumber
      else
        .ok ((splitSign u).1 ++ (splitSign u).2.takeWhile Char.isDigit,
          (splitSign u).2.dropWhile Char.isDigit) := by
  unfold readExpPart
  rw [readSign_eq_splitSign]
  rcases hsp : splitSign u with ⟨sgn, u1⟩
  simp only
  rw [isDigit_head_eq, readNextDigits_eq]
  cases hemp : (u1.takeWhile Char.isDigit).isEmpty <;> simp [hemp]

theorem readNumberStr_eq_scan (s : TextStream) : readNumberStr s = scanNumber s := by
  unfold readNumberStr scanNumber readFracPart
  rw [readSign_eq_splitSign]
  rcases hsp : splitSign s with ⟨sgn, s1⟩
  simp only
  rw [readIntPart_eq]
  simp only
  rcases hr1 : s1.dropWhile Char.isDigit with _ | ⟨c1, t⟩
  · simp [isDecimal, Current]
  by_cases hc1 : c1 = '.'
  · subst hc1
    cases hfs : (t.takeWhile Char.isDigit).isEmpty
    · by_cases hE : (t.dropWhile Char.isDigit).head? = some 'E'
      · rcases hex : readExpPart (t.dropWhile Char.isDigit).tail with e | ⟨es, s3⟩ <;>
          simp [isDecimal, Current, moveNext_fst, isDigit_headq_eq, readNextDigits_eq, hfs,
            hE, hex]
      · simp [isDecimal, Current, moveNext_fst, isDigit_headq_eq, readNextDigits_eq, hfs, hE]
    · simp [isDecimal, Current, moveNext_fst, isDigit_headq_eq, readNextDigits_eq, hfs]
  · simp [isDecimal, Current, hc1]

theorem numberTokenAmended_parts (s : TextStream) (ds X : List Char)
    (hds : ds.all Char.isDigit = true)
    (hXh : X.head? = none ∨ X.head? = some '.')
    (hX : numberTailAmended X = true) :
    numberTokenAmended ((splitSign s).1 ++ (ds ++ X)) = true := by
  have hXm : X.head? ≠ some '-' := by
    rcases hXh with h | h <;> rw [h] <;> simp
  have hXd : X.dropWhile Char.isDigit = X := by
    rcases hXh with h | h
    · rw [List.head?_eq_none_iff.mp h]
      rfl
    · rw [eq_cons_of_head? h]
      exact List.dropWhile_cons_of_neg (by decide)
  unfold numberTokenAmended
  rw [stripMinus_splitSign s (ds ++ X) (head?_append_ne_minus hds hXm)]
  rw [List.dropWhile_append_of_pos (List.all_eq_true.mp hds)]
  rw [hXd]
  exact hX

theorem scanNumber_sound (s : TextStream) (t : List Char) (s' : TextStream)
    (h : scanNumber s = .ok (t, s')) :
    numberTokenAmended t = true ∧ s = t ++ s' := by
  unfold scanNumber at h
  rcases hsp : splitSign s with ⟨sgn, s1⟩
  rw [hsp] at h
  simp only at h
  have hs : sgn ++ s1 = s := by
    conv_rhs => rw [← splitSign_append s]
    rw [hsp]
  have hsgn1 : (splitSign s).1 = sgn := by rw [hsp]
  have hds : (s1.takeWhile Char.isDigit).all Char.isDigit = true := List.all_takeWhile
  by_cases hdec : isDecimal (Current (s1.dropWhile Char.isDigit)) = true
  case neg =>
    rw [if_neg hdec] at h
    simp only [Except.ok.injEq, Prod.mk.injEq] at h
    obtain ⟨ht, hs'⟩ := h
    subst hs'
    constructor
    · rw [← ht, ← hsgn1, ← List.append_nil (s1.takeWhile Char.isDigit)]
      exact numberTokenAmended_parts s _ [] hds (Or.inl rfl) rfl
    · rw [← ht, List.append_assoc, List.takeWhile_append_dropWhile, hs]
  case pos =>
    rw [if_pos hdec] at h
    have hcur : Current (s1.dropWhile Char.isDigit) = some '.' := by
      simpa [isDecimal] using hdec
    have hr1 : s1.dropWhile Char.isDigit = '.' :: (s1.dropWhile Char.isDigit).tail :=
      eq_cons_of_head? hcur
    by_cases hfs : ((s1.dropWhile Char.isDigit).tail.takeWhile Char.isDigit).isEmpty = true
    case pos =>
      rw [if_pos hfs] at h
      simp only [Except.ok.injEq, Prod.mk.injEq] at h
      obtain ⟨ht, hs'⟩ := h
      subst hs'
      constructor
      · rw [← ht, ← hsgn1, List.append_assoc]
        exact numberTokenAmended_parts s _ ['.'] hds (Or.inr rfl) rfl
      · rw [← ht]
        rw [List.append_assoc, List.append_assoc]
        rw [show (['.'] : List Char) ++ (s1.dropWhile Char.isDigit).tail =
          '.' :: (s1.dropWhile Char.isDigit).tail from rfl]
        rw [← hr1, List.takeWhile_append_dropWhile, hs]
    case neg =>
      have hfs' : ((s1.dropWhile Char.isDigit).tail.takeWhile Char.isDigit).isEmpty = false :=
        Bool.eq_false_iff.mpr hfs
      rw [if_neg hfs] at h
      have hfsall : ((s1.dropWhile Char.isDigit).tail.takeWhile Char.isDigit).all
          Char.isDigit = true := List.all_takeWhile
      by_cases hE : Current ((s1.dropWhile Char.isDigit).tail.dropWhile Char.isDigit) =
          some 'E'
      case neg =>
        rw [if_neg hE] at h
        simp only [Except.ok.injEq, Prod.mk.injEq] at h
        obtain ⟨ht, hs'⟩ := h
        subst hs'
        constructor
        · rw [← ht, ← hsgn1, List.append_assoc]
          refine numberTokenAmended_parts s _ _ hds (Or.inr rfl) ?_
          simp [numberTailAmended, fracTailSpec, expPart, takeWhile_of_all hfsall,
            dropWhile_of_all hfsall, hfs']
        · rw [← ht]
          rw [List.append_assoc, List.append_assoc]
          rw [show ('.' : Char) :: (s1.dropWhile Char.isDigit).tail.takeWhile Char.isDigit ++
              (s1.dropWhile Char.isDigit).tail.dropWhile Char.isDigit =
            '.' :: ((s1.dropWhile Char.isDigit).tail.takeWhile Char.isDigit ++
              (s1.dropWhile Char.isDigit).tail.dropWhile Char.isDigit) from rfl]
          rw [List.takeWhile_append_dropWhile, ← hr1, List.takeWhile_append_dropWhile, hs]
      case pos =>
        rw [if_pos hE] at h
        rcases hex : readExpPart ((s1.dropWhile Char.isDigit).tail.dropWhile
            Char.isDigit).tail with e | ⟨expStr, s3⟩ <;> simp only [hex] at h
        · simp at h
        rw [readExpPart_eq] at hex
        by_cases hemp : (((splitSign (((s1.dropWhile Char.isDigit).tail.dropWhile
            Char.isDigit).tail)).2).takeWhile Char.isDigit).isEmpty = true
        · rw [if_pos hemp] at hex
          simp at hex
        rw [if_neg hemp] at hex
        simp only [Except.ok.injEq, Prod.mk.injEq] at hex
        obtain ⟨hexp, hs3⟩ := hex
        have hemp' := Bool.eq_false_iff.mpr hemp
        have hesall : ((((splitSign (((s1.dropWhile Char.isDigit).tail.dropWhile
            Char.isDigit).tail)).2).takeWhile Char.isDigit)).all Char.isDigit = true :=
          List.all_takeWhile
        simp only [Except.ok.injEq, Prod.mk.injEq] at h
        obtain ⟨ht, hs'⟩ := h
        subst hs'
        constructor
        · rw [← ht, ← hsgn1, List.append_assoc, ← hexp]
          refine numberTokenAmended_parts s _ _ hds (Or.inr rfl) ?_
          simp [numberTailAmended, fracTailSpec, expPart,
            List.takeWhile_append_of_pos (List.all_eq_true.mp hfsall),
            List.dropWhile_append_of_pos (List.all_eq_true.mp hfsall),
            show ('E').isDigit = false from by decide,
            stripMinus_splitSign _ _ (head?_ne_minus_of_all_digit hesall),
            hfs', hemp', hesall]
        · rw [← ht, ← hexp, ← hs3]
          simp only [List.append_assoc, List.cons_append]
          rw [List.takeWhile_append_dropWhile, splitSign_append]
          rw [← eq_cons_of_head? hE, List.takeWhile_append_dropWhile, ← hr1]
          rw [List.takeWhile_append_dropWhile, hs]

theorem numberTailAmended_cons_ne {c : Char} (t : List Char) (h : c ≠ '.') :
    numberTailAmended (c :: t) = false := by
  unfold numberTailAmended
  split
  · next heq => exact absurd heq (by simp)
  · next heq => exact absurd (List.cons.inj heq).1 h
  · rfl

theorem expPart_cons_ne {c : Char} (r : List Char) (h : c ≠ 'E') :
    expPart (c :: r) = false := by
  unfold expPart
  split
  · next heq => exact absurd heq (by simp)
  · next heq => exact absurd (List.cons.inj heq).1 h
  · rfl

theorem badExpTail_cons_ne {c : Char} (t : List Char) (h : c ≠ '.') :
    badExpTail (c :: t) = false := by
  unfold badExpTail
  split
  · next heq => exact absurd (List.cons.inj heq).1 h
  · rfl

theorem expBadAt_cons_ne {c : Char} (r : List Char) (h : c ≠ 'E') :
    expBadAt (c :: r) = false := by
  unfold expBadAt
  split
  · next heq => exact absurd (List.cons.inj heq).1 h
  · rfl

theorem scanNumber_complete (w : List Char) (h : numberTokenAmended w = true) :
    scanNumber w = .ok (w, []) := by
  unfold numberTokenAmended at h
  unfold scanNumber
  rcases hsp : splitSign w with ⟨sgn, s1⟩
  have hsm : stripMinus w = s1 := by
    unfold stripMinus
    rw [hsp]
  rw [hsm] at h
  simp only
  have hw : sgn ++ s1 = w := by
    conv_rhs => rw [← splitSign_append w]
    rw [hsp]
  rcases hr1 : s1.dropWhile Char.isDigit with _ | ⟨c1, t⟩
  · rw [if_neg (show ¬isDecimal (Current ([] : TextStream)) = true from by decide)]
    have hts : s1.takeWhile Char.isDigit = s1 := by
      have h2 := List.takeWhile_append_dropWhile Char.isDigit s1
      rw [hr1, List.append_nil] at h2
      exact h2
    rw [hts, hw]
  rw [hr1] at h
  by_cases hc1 : c1 = '.'
  case neg =>
    rw [numberTailAmended_cons_ne t hc1] at h
    exact absurd h (by simp)
  case pos =>
    subst hc1
    rw [if_pos (show isDecimal (Current ('.' :: t)) = true from rfl)]
    simp only [List.tail_cons]
    simp only [numberTailAmended, Bool.or_eq_true] at h
    rcases h with hemp | hfrac
    · have ht : t = [] := by
        rcases t with _ | _
        · rfl
        · simp at hemp
      subst ht
      rw [if_pos (show (([] : List Char).takeWhile Char.isDigit).isEmpty = true from rfl)]
      have htoken : sgn ++ s1.takeWhile Char.isDigit ++ ['.'] = w := by
        conv_rhs => rw [← hw, ← List.takeWhile_append_dropWhile Char.isDigit s1, hr1]
        rw [List.append_assoc]
      rw [htoken]
    · simp only [fracTailSpec, Bool.and_eq_true, Bool.not_eq_true'] at hfrac
      obtain ⟨hfs, hexp⟩ := hfrac
      rw [if_neg (by simp [hfs])]
      rcases hr2 : t.dropWhile Char.isDigit with _ | ⟨c2, u⟩
      · rw [if_neg (show ¬Current ([] : TextStream) = some 'E' from by decide)]
        have hts : t.takeWhile Char.isDigit = t := by
          have h2 := List.takeWhile_append_dropWhile Char.isDigit t
          rw [hr2, List.append_nil] at h2
          exact h2
        rw [hts]
        have htoken : sgn ++ s1.takeWhile Char.isDigit ++ '.' :: t = w := by
          conv_rhs => rw [← hw, ← List.takeWhile_append_dropWhile Char.isDigit s1, hr1]
          rw [List.append_assoc]
        rw [htoken]
      rw [hr2] at hexp
      by_cases hc2 : c2 = 'E'
      case neg =>
        rw [expPart_cons_ne u hc2] at hexp
        exact absurd hexp (by simp)
      case pos =>
        subst hc2
        simp only [expPart, Bool.and_eq_true, Bool.not_eq_true'] at hexp
        obtain ⟨hne, hall⟩ := hexp
        rw [if_pos (show Current ('E' :: u) = some 'E' from rfl), List.tail_cons]
        have hu2 : (splitSign u).2 = stripMinus u := rfl
        rcases hex : readExpPart u with e | ⟨expStr, s3⟩
        · rw [readExpPart_eq u, hu2, takeWhile_of_all hall,
            if_neg (by simp [hne])] at hex
          simp at hex
        · simp only [hex]
          rw [readExpPart_eq u, hu2, takeWhile_of_all hall,
            if_neg (by simp [hne]), dropWhile_of_all hall] at hex
          simp only [Except.ok.injEq, Prod.mk.injEq] at hex
          obtain ⟨hexp', hs3⟩ := hex
          rw [← hexp', ← hs3]
          have htoken : sgn ++ s1.takeWhile Char.isDigit ++
              ('.' :: t.takeWhile Char.isDigit ++ 'E' :: ((splitSign u).1 ++ stripMinus u))
              = w := by
            rw [← hu2, splitSign_append, ← hr2, List.cons_append,
              List.takeWhile_append_dropWhile]
            conv_rhs => rw [← hw, ← List.takeWhile_append_dropWhile Char.isDigit s1, hr1]
            rw [List.append_assoc]
          rw [htoken]

theorem scanNumber_error_kind (s : TextStream) (e : ParseError)
    (h : scanNumber s = .error e) : e = .invalidNumber := by
  unfold scanNumber at h
  rcases hsp : splitSign s with ⟨sgn, s1⟩
  rw [hsp] at h
  simp only at h
  by_cases hdec : isDecimal (Current (s1.dropWhile Char.isDigit)) = true
  case neg =>
    rw [if_neg hdec] at h
    simp at h
  case pos =>
    rw [if_pos hdec] at h
    by_cases hfs : ((s1.dropWhile Char.isDigit).tail.takeWhile Char.isDigit).isEmpty = true
    case pos =>
      rw [if_pos hfs] at h
      simp at h
    case neg =>
      rw [if_neg hfs] at h
      by_cases hE : Current ((s1.dropWhile Char.isDigit).tail.dropWhile Char.isDigit) =
          some 'E'
      case neg =>
        rw [if_neg hE] at h
        simp at h
      case pos =>
        rw [if_pos hE] at h
        rcases hex : readExpPart ((s1.dropWhile Char.isDigit).tail.dropWhile
            Char.isDigit).tail with e2 | ⟨expStr, s3⟩ <;> simp only [hex] at h
        · rw [readExpPart_eq] at hex
          by_cases hemp : ((((splitSign (((s1.dropWhile Char.isDigit).tail.dropWhile
              Char.isDigit).tail)).2).takeWhile Char.isDigit)).isEmpty = true
          · rw [if_pos hemp] at hex
            simp only [Except.error.injEq] at hex h
            rw [← h, ← hex]
          · rw [if_neg hemp] at hex
            simp at hex
        · simp at h

theorem scanNumber_error_iff (s : TextStream) :
    scanNumber s = .error .invalidNumber ↔ badExponent s = true := by
  unfold scanNumber badExponent
  rcases hsp : splitSign s with ⟨sgn, s1⟩
  have hsm : stripMinus s = s1 := by
    unfold stripMinus
    rw [hsp]
  rw [hsm]
  simp only
  rcases hr1 : s1.dropWhile Char.isDigit with _ | ⟨c1, t⟩
  · rw [if_neg (show ¬isDecimal (Current ([] : TextStream)) = true from by decide)]
    simp [badExpTail]
  by_cases hc1 : c1 = '.'
  case neg =>
    have hd : ¬isDecimal (Current (c1 :: t)) = true := by
      simp [isDecimal, Current, hc1]
    rw [if_neg hd, badExpTail_cons_ne t hc1]
    simp
  case pos =>
    subst hc1
    rw [if_pos (show isDecimal (Current ('.' :: t)) = true from rfl)]
    simp only [List.tail_cons, badExpTail]
    cases hfs : (t.takeWhile Char.isDigit).isEmpty
    · rw [if_neg (by simp [hfs])]
      rcases hr2 : t.dropWhile Char.isDigit with _ | ⟨c2, u⟩
      · rw [if_neg (show ¬Current ([] : TextStream) = some 'E' from by decide)]
        simp [expBadAt]
      by_cases hc2 : c2 = 'E'
      case neg =>
        have hd2 : ¬Current (c2 :: u) = some 'E' := by
          simp [Current, hc2]
        rw [if_neg hd2, expBadAt_cons_ne u hc2]
        simp
      case pos =>
        subst hc2
        rw [if_pos (show Current ('E' :: u) = some 'E' from rfl), List.tail_cons]
        rw [readExpPart_eq u]
        simp only [expBadAt]
        have hu2 : (splitSign u).2 = stripMinus u := rfl
        rw [hu2, isDigit_head_eq]
        cases hemp : ((stripMinus u).takeWhile Char.isDigit).isEmpty
        · rw [if_neg (by simp [hemp])]
          simp [hfs, hemp]
        · rw [if_pos (by simp [hemp])]
          simp [hfs, hemp]
    · simp

theorem toNat_ofNat_valid (n : ℕ) (h : n.isValidChar) : (Char.ofNat n).toNat = n := by
  unfold Char.ofNat
  rw [dif_pos h]
  rfl

theorem toUpper_eq (c : Char) :
    c.toUpper = if c.toNat ≥ 97 ∧ c.toNat ≤ 122 then Char.ofNat (c.toNat - 32) else c := rfl

theorem toUpper_not_lower (c : Char) : ¬(c.toUpper.toNat ≥ 97 ∧ c.toUpper.toNat ≤ 122) := by
  rw [toUpper_eq]
  by_cases h : c.toNat ≥ 97 ∧ c.toNat ≤ 122
  · rw [if_pos h, toNat_ofNat_valid (c.toNat - 32) (Or.inl (by omega))]
    omega
  · rw [if_neg h]
    exact h

theorem toUpper_toUpper (c : Char) : c.toUpper.toUpper = c.toUpper := by
  rw [toUpper_eq c.toUpper, if_neg (toUpper_not_lower c)]

/-! ## Claim theorems -/

/-- Claim C1 (corrected), counterexample: the claim's own example input
`M0,0`, in which the initial command grammar consumes the remainder of the
input, makes `Parse` fail with `InvalidCommand` instead of returning the
accumulated `[MoveTo (0,0)]`. -/
theorem C1_counterexample :
    Parse 100 "M0,0" = .error .invalidCommand ∧
    Parse 100 "M0,0" ≠ .ok [PathCommand.MoveTo ⟨.val 0, .val 0⟩] := by
  constructor
  · decide
  · decide

/-- Claim C1 (corrected, amended): the driver terminates successfully with
the accumulated instruction list when the cursor is exhausted at the end of
a body-phase iteration, right after a command grammar returned; but when the
cursor is already exhausted at the start of a body-phase iteration — in
particular when the initial command grammar consumed the whole input — the
body phase unconditionally resolves one more command and `Parse` fails with
`InvalidCommand`. -/
theorem C1_amended :
    (∀ fuel commands (stream : TextStream), Current stream = none →
        parseLoop (fuel + 1) commands stream = .error .invalidCommand)
    ∧ (∀ fuel commands (stream : TextStream) p newCommands s1,
        resolveCommand ['M', 'L', 'C', 'Q', 'A', 'Z'] (Current stream) = .ok p →
        p fuel stream = .ok (newCommands, s1) →
        Current s1 = none →
        parseLoop (fuel + 1) commands stream = .ok (commands ++ newCommands))
    ∧ Parse 100 "M0,0L1,1" = .ok [.MoveTo ⟨.val 0, .val 0⟩, .LineTo ⟨.val 1, .val 1⟩] := by
  refine ⟨?_, ?_, by decide⟩
  · intro fuel commands stream h
    have hs : stream = [] := List.head?_eq_none_iff.mp h
    subst hs
    rfl
  · intro fuel commands stream p newCommands s1 h1 h2 h3
    have hs1 : s1 = [] := List.head?_eq_none_iff.mp h3
    subst hs1
    unfold parseLoop
    simp only [h1, h2]
    simp [Current, MoveNext]

/-- Witness for C1_amended at concrete inputs. -/
theorem C1_witness :
    parseLoop 6 [] ['Z'] = .ok [PathCommand.ClosePath] ∧
    parseLoop 1 [PathCommand.ClosePath] [] = .error .invalidCommand :=
  ⟨C1_amended.2.1 5 [] ['Z'] parseClosePathCommand [PathCommand.ClosePath] [] rfl rfl rfl,
   C1_amended.1 0 [PathCommand.ClosePath] [] rfl⟩

/-- Claim C2 (corrected), counterexample: on the claim's example
`M0,0L0,0,10,10` the code does not treat the comma after the first `L` group
as a group separator; it yields four instructions
`MoveTo(0,0), LineTo(0,0), LineTo(0,10), LineTo(0,10)` instead of the
claimed `MoveTo(0,0), LineTo(0,0), LineTo(10,10)`. -/
theorem C2_counterexample :
    Parse 100 "M0,0L0,0,10,10" =
      .ok [.MoveTo ⟨.val 0, .val 0⟩, .LineTo ⟨.val 0, .val 0⟩,
           .LineTo ⟨.val 0, .val 10⟩, .LineTo ⟨.val 0, .val 10⟩] ∧
    Parse 100 "M0,0L0,0,10,10" ≠
      .ok [.MoveTo ⟨.val 0, .val 0⟩, .LineTo ⟨.val 0, .val 0⟩,
           .LineTo ⟨.val 10, .val 10⟩] := by
  constructor
  · decide
  · decide

/-- Claim C2 (corrected, amended): the argument separator — optional
whitespace, then at most one comma, then optional whitespace — is accepted
between the two numbers inside a point and between the argument groups of
the `C`, `Q` and `A` grammars; but after each `L` group only whitespace is
skipped, so a comma between consecutive `L` groups is instead consumed while
scanning the next group's x coordinate (which reads an empty literal, i.e.
0).  With whitespace between the `L` groups the claimed instruction list is
produced: `parse("M0,0L0,0 10,10")` yields
`MoveTo(0,0), LineTo(0,0), LineTo(10,10)`. -/
theorem C2_amended :
    (∀ ws1 ws2 (rest : TextStream),
        (∀ c ∈ ws1, isWhitespaceCharacter (some c) = true) →
        (∀ c ∈ ws2, isWhitespaceCharacter (some c) = true) →
        (∀ c, Current rest = some c → isWhitespaceCharacter (some c) = false ∧ c ≠ ',') →
        skipArgumentSeparator (ws1 ++ ',' :: (ws2 ++ rest)) = rest ∧
        skipArgumentSeparator (ws1 ++ rest) = rest)
    ∧ Parse 100 "M0,0L0,0 10,10" =
        .ok [.MoveTo ⟨.val 0, .val 0⟩, .LineTo ⟨.val 0, .val 0⟩,
             .LineTo ⟨.val 10, .val 10⟩]
    ∧ Parse 100 "M0 , 0Z" = .ok [.MoveTo ⟨.val 0, .val 0⟩, .ClosePath]
    ∧ Parse 100 "M0,0C1,1 2,2,3,3 4,4,5,5 6,6" =
        .ok [.MoveTo ⟨.val 0, .val 0⟩,
             .CubicCurveTo ⟨.val 1, .val 1⟩ ⟨.val 2, .val 2⟩ ⟨.val 3, .val 3⟩,
             .CubicCurveTo ⟨.val 4, .val 4⟩ ⟨.val 5, .val 5⟩ ⟨.val 6, .val 6⟩] := by
  refine ⟨?_, by decide, by decide, by decide⟩
  intro ws1 ws2 rest h1 h2 h3
  have hrest_ws : ∀ c, Current rest = some c → isWhitespaceCharacter (some c) = false :=
    fun c hc => (h3 c hc).1
  have hsw_rest : skipWhitespace rest = rest := skipWhitespace_of_head rest hrest_ws
  have hsc_rest : skipComma rest = rest := by
    unfold skipComma
    rcases hr : Current rest with _ | c
    · simp [isComma, hr]
    · have hc := (h3 c hr).2
      simp [isComma, hr, hc]
  constructor
  · unfold skipArgumentSeparator
    rw [skipWhitespace_append ws1 _ h1]
    rw [skipWhitespace_of_head (',' :: (ws2 ++ rest)) (by intro c hc; cases hc; decide)]
    rw [show skipComma (',' :: (ws2 ++ rest)) = ws2 ++ rest by
      simp [skipComma, isComma, Current, MoveNext]]
    rw [skipWhitespace_append ws2 _ h2, hsw_rest]
  · unfold skipArgumentSeparator
    rw [skipWhitespace_append ws1 _ h1, hsw_rest, hsc_rest, hsw_rest]

/-- Witness for C2_amended at a concrete separator instance. -/
theorem C2_witness :
    skipArgumentSeparator [' ', ',', '\t', '5'] = ['5'] := by
  have h := (C2_amended.1 [' '] ['\t'] ['5']
    (by decide) (by decide)
    (by
      intro c hc
      simp [Current] at hc
      subst hc
      exact ⟨by decide, by decide⟩)).1
  exact h

/-- Claim C3 (confirmed): a repeating grammar (`L`, `C`, `Q`, `A`) consumes
another argument group exactly when the current character is neither a
command letter nor the end sentinel; a command letter with zero following
argument groups yields zero instructions without error, and one instruction
is produced per group, e.g. `parse("M0,0L0,0 10,10 20,20")` is one `MoveTo`
followed by three `LineTo`. -/
theorem C3_implicit_repetition :
    (∀ fuel (stream : TextStream),
        (isCommandCharacter (Current stream) || !(Current stream).isSome) = true →
        parseLineToLoop (fuel + 1) stream = .ok ([], stream) ∧
        parseCubicLoop (fuel + 1) stream = .ok ([], stream) ∧
        parseQuadraticLoop (fuel + 1) stream = .ok ([], stream) ∧
        parseArcLoop (fuel + 1) stream = .ok ([], stream))
    ∧ (∀ fuel (stream : TextStream) cmds s',
        parseLineToLoop fuel stream = .ok (cmds, s') →
        (cmds = [] ↔ (isCommandCharacter (Current stream) || !(Current stream).isSome) = true))
    ∧ Parse 100 "M0,0L0,0 10,10 20,20" =
        .ok [.MoveTo ⟨.val 0, .val 0⟩, .LineTo ⟨.val 0, .val 0⟩,
             .LineTo ⟨.val 10, .val 10⟩, .LineTo ⟨.val 20, .val 20⟩]
    ∧ Parse 100 "M0,0LZ" = .ok [.MoveTo ⟨.val 0, .val 0⟩, .ClosePath] := by
  refine ⟨?_, ?_, by decide, by decide⟩
  · intro fuel stream h
    have hcond : (!isCommandCharacter (Current stream) && (Current stream).isSome) = false := by
      cases h1 : isCommandCharacter (Current stream) <;>
        cases h2 : (Current stream).isSome <;> simp_all
    refine ⟨?_, ?_, ?_, ?_⟩
    · unfold parseLineToLoop
      split
      · next hc => rw [hcond] at hc; simp at hc
      · rfl
    · unfold parseCubicLoop
      split
      · next hc => rw [hcond] at hc; simp at hc
      · rfl
    · unfold parseQuadraticLoop
      split
      · next hc => rw [hcond] at hc; simp at hc
      · rfl
    · unfold parseArcLoop
      split
      · next hc => rw [hcond] at hc; simp at hc
      · rfl
  · intro fuel stream cmds s' h
    rcases fuel with _ | fuel
    · rw [parseLineToLoop] at h
      simp at h
    cases hcond : (!isCommandCharacter (Current stream) && (Current stream).isSome)
    · unfold parseLineToLoop at h
      rw [hcond, if_neg Bool.false_ne_true] at h
      simp only [Except.ok.injEq, Prod.mk.injEq] at h
      have hor : (isCommandCharacter (Current stream) || !(Current stream).isSome) = true := by
        cases h1 : isCommandCharacter (Current stream) <;>
          cases h2 : (Current stream).isSome <;> simp_all
      rw [← h.1]
      exact iff_of_true rfl hor
    · unfold parseLineToLoop at h
      rw [if_pos hcond] at h
      rcases hp : readPointAndSkipWhitespace stream with e | ⟨p, s1⟩ <;> simp only [hp] at h
      · simp at h
      rcases hl : parseLineToLoop fuel s1 with e | ⟨cmds2, s2⟩ <;> simp only [hl] at h
      · simp at h
      simp only [Except.ok.injEq, Prod.mk.injEq] at h
      constructor
      · intro hc
        rw [← h.1] at hc
        exact absurd hc (by simp)
      · intro hc
        exfalso
        cases h1 : isCommandCharacter (Current stream) <;>
          cases h2 : (Current stream).isSome <;> simp_all

/-- Witness for C3_implicit_repetition at concrete inputs. -/
theorem C3_witness :
    parseLineToLoop 4 ['Z'] = .ok ([], ['Z']) ∧
    parseArcLoop 4 [] = .ok ([], []) := by
  refine ⟨(C3_implicit_repetition.1 3 ['Z'] (by decide)).1,
    (C3_implicit_repetition.1 3 [] (by decide)).2.2.2⟩

/-- Claim C6 (confirmed): the `F` command reads one number; 0 selects the
even-odd fill rule, 1 selects non-zero, anything else fails the whole parse
with `InvalidFillRuleValue`; `parse("F0M0,0Z")` is
`[SetFillRule EvenOdd, MoveTo(0,0), ClosePath]` and `parse("F2M0,0Z")`
fails. -/
theorem C6_fill_rule :
    resolveRule (.val 0) = .ok .EvenOdd
    ∧ resolveRule (.val 1) = .ok .NonZero
    ∧ (∀ n, n ≠ .val 0 → n ≠ .val 1 → resolveRule n = .error .invalidFillRuleValue)
    ∧ Parse 100 "F0M0,0Z" =
        .ok [.SetFillRule .EvenOdd, .MoveTo ⟨.val 0, .val 0⟩, .ClosePath]
    ∧ Parse 100 "F1M0,0Z" =
        .ok [.SetFillRule .NonZero, .MoveTo ⟨.val 0, .val 0⟩, .ClosePath]
    ∧ Parse 100 "F2M0,0Z" = .error .invalidFillRuleValue := by
  refine ⟨by decide, by decide, ?_, by decide, by decide, by decide⟩
  intro n h0 h1
  unfold resolveRule
  rw [if_neg h0, if_neg h1]

/-- Witness for C6_fill_rule at a concrete value. -/
theorem C6_witness : resolveRule (.val 2) = .error .invalidFillRuleValue :=
  C6_fill_rule.2.2.1 (.val 2) (by decide) (by decide)

/-- Claim C7 (confirmed): every command grammar with arguments (`F`, `M`,
`L`, `C`, `Q`, `A`) fails with `UnexpectedEndOfStream` when the input ends
immediately after the command letter (the stream holds at most that one
character), while the `Z` grammar always succeeds with a single `ClosePath`;
concretely `parse("M")` fails with `UnexpectedEndOfStream` and
`parse("M0,0Z")` succeeds. -/
theorem C7_unexpected_end :
    (∀ fuel (stream : TextStream), stream.length ≤ 1 →
        parseFillStyleCommand fuel stream = .error .unexpectedEndOfStream ∧
        parseMoveToCommand fuel stream = .error .unexpectedEndOfStream ∧
        parseLineToCommand fuel stream = .error .unexpectedEndOfStream ∧
        parseCubicBezierCurveCommand fuel stream = .error .unexpectedEndOfStream ∧
        parseQuadraticBezierCurveCommand fuel stream = .error .unexpectedEndOfStream ∧
        parseEllipticalArcCommand fuel stream = .error .unexpectedEndOfStream)
    ∧ (∀ fuel (stream : TextStream),
        ∃ s', parseClosePathCommand fuel stream = .ok ([.ClosePath], s'))
    ∧ Parse 100 "M" = .error .unexpectedEndOfStream
    ∧ Parse 100 "F" = .error .unexpectedEndOfStream
    ∧ Parse 100 "M0,0L" = .error .unexpectedEndOfStream
    ∧ Parse 100 "M0,0C" = .error .unexpectedEndOfStream
    ∧ Parse 100 "M0,0Q" = .error .unexpectedEndOfStream
    ∧ Parse 100 "M0,0A" = .error .unexpectedEndOfStream
    ∧ Parse 100 "M0,0Z" = .ok [.MoveTo ⟨.val 0, .val 0⟩, .ClosePath] := by
  refine ⟨?_, fun fuel stream => ⟨_, rfl⟩, by decide, by decide, by decide, by decide,
    by decide, by decide, by decide⟩
  intro fuel stream h
  have hmv : MoveNext stream = (stream.tail, false) := by
    rcases stream with _ | ⟨c, t⟩
    · rfl
    · rcases t with _ | ⟨d, u⟩
      · rfl
      · simp at h
  refine ⟨?_, ?_, ?_, ?_, ?_, ?_⟩ <;>
    simp [parseFillStyleCommand, parseMoveToCommand, parseLineToCommand,
      parseCubicBezierCurveCommand, parseQuadraticBezierCurveCommand,
      parseEllipticalArcCommand, hmv]

/-- Witness for C7_unexpected_end at a concrete input. -/
theorem C7_witness :
    parseMoveToCommand 3 ['M'] = .error .unexpectedEndOfStream ∧
    (∃ s', parseClosePathCommand 3 ['Z'] = .ok ([.ClosePath], s')) :=
  ⟨(C7_unexpected_end.1 3 ['M'] (by decide)).2.1, C7_unexpected_end.2.1 3 ['Z']⟩

/-- Claim C10 (confirmed): invoked at a position whose character is not a
minus sign, digit or decimal point (a comma, a letter, or end of input), the
number scanner consumes nothing and returns the value 0 — the conversion of
the empty accumulated string — instead of an error, so a missing coordinate
silently becomes 0: `parse("M,5Z")` is `[MoveTo(0,5), ClosePath]`. -/
theorem C10_empty_number :
    (∀ stream : TextStream,
        isNegativeSign (Current stream) = false →
        isDigit (Current stream) = false →
        isDecimal (Current stream) = false →
        readNumberStr stream = .ok ([], stream) ∧
        readNumber stream = .ok (.val 0, stream))
    ∧ Parse 100 "M,5Z" = .ok [.MoveTo ⟨.val 0, .val 5⟩, .ClosePath] := by
  refine ⟨?_, by decide⟩
  intro stream h1 h2 h3
  have hstr : readNumberStr stream = .ok ([], stream) := by
    unfold readNumberStr readSign readIntPart readFracPart
    simp [h1, h2, h3]
  refine ⟨hstr, ?_⟩
  unfold readNumber
  rw [hstr]
  rfl

/-- Witness for C10_empty_number at a concrete input. -/
theorem C10_witness : readNumber [','] = .ok (.val 0, [',']) :=
  ((C10_empty_number.1 [','] (by decide) (by decide) (by decide)).2)

/-- Claim C9 (confirmed): parsing is case-insensitive — for every fuel and
every input string, `Parse` on the uppercased string equals `Parse` on the
original, and concretely `parse("m0,0l1,1")` equals `parse("M0,0L1,1")`. -/
theorem C9_case_insensitive :
    (∀ fuel (s : String), Parse fuel (jsToUpperString s) = Parse fuel s)
    ∧ Parse 100 "m0,0l1,1" = Parse 100 "M0,0L1,1"
    ∧ Parse 100 "m0,0l1,1" = .ok [.MoveTo ⟨.val 0, .val 0⟩, .LineTo ⟨.val 1, .val 1⟩] := by
  refine ⟨?_, by decide, by decide⟩
  intro fuel s
  have hempty : (jsToUpperString s = "") ↔ (s = "") := by
    rw [String.ext_iff, String.ext_iff]
    show jsToUpper s.data = "".data ↔ s.data = "".data
    constructor
    · intro h
      have : s.data.map Char.toUpper = [] := h
      simpa using List.map_eq_nil_iff.mp this
    · intro h
      rw [show s.data = [] from by simpa using h]
      rfl
  unfold Parse
  by_cases h : s = ""
  · rw [if_pos (hempty.mpr h), if_pos h]
  · rw [if_neg (fun hc => h (hempty.mp hc)), if_neg h]
    have hup : jsToUpper (jsToUpperString s).data = jsToUpper s.data := by
      show jsToUpper (jsToUpper s.data) = jsToUpper s.data
      unfold jsToUpper
      rw [List.map_map]
      exact List.map_congr_left fun a _ => toUpper_toUpper a
    rw [hup]

/-- Claim C4 (corrected), counterexample: the number scanner also consumes a
bare decimal point with no following fraction digit — on the input `.` it
accepts the whole token `.` — although that token is outside the claimed
language `'-'? digit* ('.' digit+ ('E' '-'? digit+)?)?`. -/
theorem C4_counterexample :
    readNumberStr ['.'] = .ok (['.'], []) ∧ numberTokenSpec ['.'] = false := by
  constructor
  · decide
  · decide

/-- Claim C4 (corrected, amended): the number scanner accepts exactly the
token language `'-'? digit* ('.' (digit+ ('E' '-'? digit+)?)?)?` — i.e. the
claimed grammar extended with a decimal point followed by zero fraction
digits, which the scanner also consumes.  Every successfully scanned token
belongs to this language and is a consumed prefix of the input, every word
of the language is scanned whole, and the token `1.5E-3` converts to the
value 0.0015. -/
theorem C4_amended :
    (∀ (s : TextStream) t s', readNumberStr s = .ok (t, s') →
        numberTokenAmended t = true ∧ s = t ++ s')
    ∧ (∀ w : List Char, numberTokenAmended w = true → readNumberStr w = .ok (w, []))
    ∧ readNumber "1.5E-3".data = .ok (.val (0.0015 : ℚ), []) := by
  refine ⟨?_, ?_, ?_⟩
  · intro s t s' h
    rw [readNumberStr_eq_scan] at h
    exact scanNumber_sound s t s' h
  · intro w h
    rw [readNumberStr_eq_scan]
    exact scanNumber_complete w h
  · have h : readNumber "1.5E-3".data = .ok (.val (mkRat 15 10000), []) := by decide
    rw [h, show (mkRat 15 10000 : ℚ) = (0.0015 : ℚ) from by norm_num [Rat.mkRat_eq_div]]

/-- Witness for C4_amended at concrete inputs. -/
theorem C4_witness :
    (numberTokenAmended ['5'] = true ∧ (['5', ','] : List Char) = ['5'] ++ [',']) ∧
    readNumberStr ['-', '.'] = .ok (['-', '.'], []) :=
  ⟨C4_amended.1 ['5', ','] ['5'] [','] (by decide), C4_amended.2.1 ['-', '.'] (by decide)⟩

/-- Claim C5 (confirmed): the number scanner fails exactly on the inputs
where the scanned number's fraction digits are followed by `E` and then,
after an optional minus sign, no digit; the failure is always the
`InvalidNumber` error, and it aborts the whole parse
(`parse("M1.5EZ")` fails with `InvalidNumber`). -/
theorem C5_invalid_number :
    (∀ s : TextStream, readNumberStr s = .error .invalidNumber ↔ badExponent s = true)
    ∧ (∀ (s : TextStream) (e : ParseError), readNumberStr s = .error e → e = .invalidNumber)
    ∧ Parse 100 "M1.5EZ" = .error .invalidNumber := by
  refine ⟨?_, ?_, by decide⟩
  · intro s
    rw [readNumberStr_eq_scan]
    exact scanNumber_error_iff s
  · intro s e h
    rw [readNumberStr_eq_scan] at h
    exact scanNumber_error_kind s e h

/-- Witness for C5_invalid_number at a concrete input. -/
theorem C5_witness :
    readNumberStr ['1', '.', '5', 'E'] = .error .invalidNumber ∧
    ParseError.invalidNumber = ParseError.invalidNumber := by
  have h : readNumberStr ['1', '.', '5', 'E'] = .error .invalidNumber :=
    (C5_invalid_number.1 ['1', '.', '5', 'E']).mpr (by decide)
  exact ⟨h, C5_invalid_number.2.1 ['1', '.', '5', 'E'] .invalidNumber h⟩

theorem parseLineToLoop_noFill (fuel : Nat) :
    ∀ (s : TextStream) cmds s', parseLineToLoop fuel s = .ok (cmds, s') →
      noFill cmds = true := by
  induction fuel with
  | zero =>
    intro s cmds s' h
    rw [parseLineToLoop] at h
    simp at h
  | succ fuel ih =>
    intro s cmds s' h
    unfold parseLineToLoop at h
    split at h
    · rcases hp : readPointAndSkipWhitespace s with e | ⟨p, s1⟩ <;> simp only [hp] at h
      · simp at h
      rcases hl : parseLineToLoop fuel s1 with e | ⟨cmds2, s2⟩ <;> simp only [hl] at h
      · simp at h
      simp only [Except.ok.injEq, Prod.mk.injEq] at h
      rw [← h.1]
      simp only [noFill, List.all_cons, Bool.and_eq_true]
      exact ⟨rfl, ih s1 cmds2 s2 hl⟩
    · simp only [Except.ok.injEq, Prod.mk.injEq] at h
      rw [← h.1]
      rfl

theorem parseCubicLoop_noFill (fuel : Nat) :
    ∀ (s : TextStream) cmds s', parseCubicLoop fuel s = .ok (cmds, s') →
      noFill cmds = true := by
  induction fuel with
  | zero =>
    intro s cmds s' h
    rw [parseCubicLoop] at h
    simp at h
  | succ fuel ih =>
    intro s cmds s' h
    unfold parseCubicLoop at h
    split at h
    · rcases h1 : readPointAndSkipSeparator s with e | ⟨cp1, s1⟩ <;> simp only [h1] at h
      · simp at h
      rcases h2 : readPointAndSkipSeparator s1 with e | ⟨cp2, s2⟩ <;> simp only [h2] at h
      · simp at h
      rcases h3 : readPointAndSkipSeparator s2 with e | ⟨ep, s3⟩ <;> simp only [h3] at h
      · simp at h
      rcases hl : parseCubicLoop fuel s3 with e | ⟨cmds2, s4⟩ <;> simp only [hl] at h
      · simp at h
      simp only [Except.ok.injEq, Prod.mk.injEq] at h
      rw [← h.1]
      simp only [noFill, List.all_cons, Bool.and_eq_true]
      exact ⟨rfl, ih s3 cmds2 s4 hl⟩
    · simp only [Except.ok.injEq, Prod.mk.injEq] at h
      rw [← h.1]
      rfl

theorem parseQuadraticLoop_noFill (fuel : Nat) :
    ∀ (s : TextStream) cmds s', parseQuadraticLoop fuel s = .ok (cmds, s') →
      noFill cmds = true := by
  induction fuel with
  | zero =>
    intro s cmds s' h
    rw [parseQuadraticLoop] at h
    simp at h
  | succ fuel ih =>
    intro s cmds s' h
    unfold parseQuadraticLoop at h
    split at h
    · rcases h1 : readPointAndSkipSeparator s with e | ⟨cp, s1⟩ <;> simp only [h1] at h
      · simp at h
      rcases h2 : readPointAndSkipSeparator s1 with e | ⟨ep, s2⟩ <;> simp only [h2] at h
      · simp at h
      rcases hl : parseQuadraticLoop fuel s2 with e | ⟨cmds2, s3⟩ <;> simp only [hl] at h
      · simp at h
      simp only [Except.ok.injEq, Prod.mk.injEq] at h
      rw [← h.1]
      simp only [noFill, List.all_cons, Bool.and_eq_true]
      exact ⟨rfl, ih s2 cmds2 s3 hl⟩
    · simp only [Except.ok.injEq, Prod.mk.injEq] at h
      rw [← h.1]
      rfl

theorem parseArcLoop_noFill (fuel : Nat) :
    ∀ (s : TextStream) cmds s', parseArcLoop fuel s = .ok (cmds, s') →
      noFill cmds = true := by
  induction fuel with
  | zero =>
    intro s cmds s' h
    rw [parseArcLoop] at h
    simp at h
  | succ fuel ih =>
    intro s cmds s' h
    unfold parseArcLoop at h
    split at h
    · rcases h1 : readPointAndSkipSeparator s with e | ⟨center, s1⟩ <;> simp only [h1] at h
      · simp at h
      rcases h2 : readNumberAndSkipSeparator s1 with e | ⟨radius, s2⟩ <;> simp only [h2] at h
      · simp at h
      rcases h3 : readNumberAndSkipSeparator s2 with e | ⟨sa, s3⟩ <;> simp only [h3] at h
      · simp at h
      rcases h4 : readNumberAndSkipSeparator s3 with e | ⟨ea, s4⟩ <;> simp only [h4] at h
      · simp at h
      rcases h5 : readNumberAndSkipSeparator s4 with e | ⟨cw, s5⟩ <;> simp only [h5] at h
      · simp at h
      rcases hl : parseArcLoop fuel s5 with e | ⟨cmds2, s6⟩ <;> simp only [hl] at h
      · simp at h
      simp only [Except.ok.injEq, Prod.mk.injEq] at h
      rw [← h.1]
      simp only [noFill, List.all_cons, Bool.and_eq_true]
      exact ⟨rfl, ih s5 cmds2 s6 hl⟩
    · simp only [Except.ok.injEq, Prod.mk.injEq] at h
      rw [← h.1]
      rfl

theorem parseMoveToCommand_shape (fuel : Nat) (s : TextStream) (cmds : List PathCommand)
    (s' : TextStream) (h : parseMoveToCommand fuel s = .ok (cmds, s')) :
    ∃ p, cmds = [.MoveTo p] := by
  unfold parseMoveToCommand at h
  rcases hmv : MoveNext s with ⟨s1, b⟩
  rw [hmv] at h
  cases b
  · simp at h
  · rcases hp : readPointAndSkipWhitespace (skipWhitespace s1) with e | ⟨p, s2⟩ <;>
      simp only [hp] at h
    · simp at h
    simp only [Except.ok.injEq, Prod.mk.injEq] at h
    exact ⟨p, h.1.symm⟩

theorem parseFillStyleCommand_shape (fuel : Nat) (s : TextStream) (cmds : List PathCommand)
    (s' : TextStream) (h : parseFillStyleCommand fuel s = .ok (cmds, s')) :
    ∃ r, cmds = [.SetFillRule r] := by
  unfold parseFillStyleCommand at h
  rcases hmv : MoveNext s with ⟨s1, b⟩
  rw [hmv] at h
  cases b
  · simp at h
  · rcases hn : readNumberAndSkipWhitespace s1 with e | ⟨num, s2⟩ <;> simp only [hn] at h
    · simp at h
    rcases hr : resolveRule num with e | r <;> simp only [hr] at h
    · simp at h
    simp only [Except.ok.injEq, Prod.mk.injEq] at h
    exact ⟨r, h.1.symm⟩

theorem resolveSecondary_noFill (cur : Option Char) (p : CommandGrammar)
    (hres : resolveCommand ['M', 'L', 'C', 'Q', 'A', 'Z'] cur = .ok p)
    (fuel : Nat) (s : TextStream) (cmds : List PathCommand) (s' : TextStream)
    (hrun : p fuel s = .ok (cmds, s')) : noFill cmds = true := by
  unfold resolveCommand at hres
  by_cases hc : containsOpt ['M', 'L', 'C', 'Q', 'A', 'Z'] cur = true
  case neg =>
    rw [if_neg hc] at hres
    simp at hres
  case pos =>
    rw [if_pos hc] at hres
    rcases cur with _ | c
    · simp [containsOpt] at hc
    have hmem : c = 'M' ∨ c = 'L' ∨ c = 'C' ∨ c = 'Q' ∨ c = 'A' ∨ c = 'Z' := by
      simpa [containsOpt] using hc
    rcases hmem with rfl | rfl | rfl | rfl | rfl | rfl <;>
        simp only [getCommandParser, Except.ok.injEq] at hres <;> subst hres
    · obtain ⟨pt, hpt⟩ := parseMoveToCommand_shape fuel s cmds s' hrun
      rw [hpt]
      rfl
    · unfold parseLineToCommand at hrun
      rcases hmv : MoveNext s with ⟨s1, b⟩
      rw [hmv] at hrun
      cases b
      · simp at hrun
      · exact parseLineToLoop_noFill fuel _ cmds s' hrun
    · unfold parseCubicBezierCurveCommand at hrun
      rcases hmv : MoveNext s with ⟨s1, b⟩
      rw [hmv] at hrun
      cases b
      · simp at hrun
      · exact parseCubicLoop_noFill fuel _ cmds s' hrun
    · unfold parseQuadraticBezierCurveCommand at hrun
      rcases hmv : MoveNext s with ⟨s1, b⟩
      rw [hmv] at hrun
      cases b
      · simp at hrun
      · exact parseQuadraticLoop_noFill fuel _ cmds s' hrun
    · unfold parseEllipticalArcCommand at hrun
      rcases hmv : MoveNext s with ⟨s1, b⟩
      rw [hmv] at hrun
      cases b
      · simp at hrun
      · exact parseArcLoop_noFill fuel _ cmds s' hrun
    · unfold parseClosePathCommand at hrun
      simp only [Except.ok.injEq, Prod.mk.injEq] at hrun
      rw [← hrun.1]
      rfl

theorem parseLoop_append_noFill (fuel : Nat) :
    ∀ (cmds : List PathCommand) (s : TextStream) out,
      parseLoop fuel cmds s = .ok out →
      ∃ suffix, out = cmds ++ suffix ∧ noFill suffix = true := by
  induction fuel with
  | zero =>
    intro cmds s out h
    rw [parseLoop] at h
    simp at h
  | succ fuel ih =>
    intro cmds s out h
    unfold parseLoop at h
    rcases hres : resolveCommand ['M', 'L', 'C', 'Q', 'A', 'Z'] (Current s) with e | p <;>
      simp only [hres] at h
    · simp at h
    rcases hrun : p fuel s with e | ⟨newCmds, s1⟩ <;> simp only [hrun] at h
    · simp at h
    have hnew : noFill newCmds = true :=
      resolveSecondary_noFill (Current s) p hres fuel s newCmds s1 hrun
    split at h
    · obtain ⟨suf, hsuf, hnf⟩ := ih (cmds ++ newCmds) s1 out h
      refine ⟨newCmds ++ suf, ?_, ?_⟩
      · rw [hsuf, List.append_assoc]
      · simp only [noFill, List.all_append, Bool.and_eq_true] at hnew hnf ⊢
        exact ⟨hnew, hnf⟩
    · rcases hmv : MoveNext s1 with ⟨s2, b⟩
      rw [hmv] at h
      cases b
      · simp only [Except.ok.injEq] at h
        exact ⟨newCmds, h.symm, hnew⟩
      · obtain ⟨suf, hsuf, hnf⟩ := ih (cmds ++ newCmds) s2 out h
        refine ⟨newCmds ++ suf, ?_, ?_⟩
        · rw [hsuf, List.append_assoc]
        · simp only [noFill, List.all_append, Bool.and_eq_true] at hnew hnf ⊢
          exact ⟨hnew, hnf⟩

/-- Claim C8 (confirmed): for every input, if the first character of the
normalized source is neither `F` nor `M` the parse fails with
`InvalidCommand` (the empty path is the only exception, returning the empty
list); and in every successful parse a `SetFillRule` instruction never
occurs past the head of the instruction list — so it appears at most once,
only as the very first instruction — and it occurs at the head only when
the normalized source starts with `F`. -/
theorem C8_fill_first :
    (∀ (fuel : Nat) (path : String), path ≠ "" →
        Current (jsTrim (jsToUpper path.data)) ≠ some 'F' →
        Current (jsTrim (jsToUpper path.data)) ≠ some 'M' →
        Parse fuel path = .error .invalidCommand)
    ∧ (∀ (fuel : Nat) (path : String) out, Parse fuel path = .ok out →
        noFill out.tail = true ∧
        (∀ r, out.head? = some (.SetFillRule r) →
          Current (jsTrim (jsToUpper path.data)) = some 'F')) := by
  constructor
  · intro fuel path hne hF hM
    unfold Parse
    rw [if_neg hne]
    have hres : resolveCommand ['F', 'M'] (Current (jsTrim (jsToUpper path.data))) =
        .error .invalidCommand := by
      unfold resolveCommand
      rw [if_neg]
      rcases hcur : Current (jsTrim (jsToUpper path.data)) with _ | c
      · simp [containsOpt]
      · rw [hcur] at hF hM
        simp only [containsOpt]
        simp only [ne_eq, Option.some.injEq] at hF hM
        simp [hF, hM]
    simp only [hres]
  · intro fuel path out h
    unfold Parse at h
    by_cases hne : path = ""
    case pos =>
      rw [if_pos hne] at h
      simp only [Except.ok.injEq] at h
      rw [← h]
      exact ⟨rfl, by intro r hr; simp at hr⟩
    case neg =>
      rw [if_neg hne] at h
      rcases hres : resolveCommand ['F', 'M'] (Current (jsTrim (jsToUpper path.data)))
        with e | p <;> simp only [hres] at h
      · simp at h
      rcases hrun : p fuel (jsTrim (jsToUpper path.data)) with e | ⟨cmds0, s1⟩ <;>
        simp only [hrun] at h
      · simp at h
      obtain ⟨suf, hsuf, hnf⟩ := parseLoop_append_noFill fuel cmds0 s1 out h
      unfold resolveCommand at hres
      by_cases hc : containsOpt ['F', 'M'] (Current (jsTrim (jsToUpper path.data))) = true
      case neg =>
        rw [if_neg hc] at hres
        simp at hres
      case pos =>
        rw [if_pos hc] at hres
        rcases hcur : Current (jsTrim (jsToUpper path.data)) with _ | c
        · rw [hcur] at hc
          simp [containsOpt] at hc
        rw [hcur] at hc hres
        have hmem : c = 'F' ∨ c = 'M' := by
          simpa [containsOpt] using hc
        rcases hmem with rfl | rfl <;>
            simp only [getCommandParser, Except.ok.injEq] at hres <;> subst hres
        · obtain ⟨r, hr⟩ := parseFillStyleCommand_shape fuel _ cmds0 s1 hrun
          subst hr
          rw [hsuf]
          exact ⟨hnf, fun _ _ => rfl⟩
        · obtain ⟨pt, hpt⟩ := parseMoveToCommand_shape fuel _ cmds0 s1 hrun
          subst hpt
          rw [hsuf]
          refine ⟨hnf, ?_⟩
          intro r hr
          simp at hr

/-- Witness for C8_fill_first at concrete inputs. -/
theorem C8_witness :
    Parse 10 "X0" = .error .invalidCommand ∧
    noFill ([PathCommand.SetFillRule .EvenOdd,
      PathCommand.MoveTo ⟨.val 0, .val 0⟩, PathCommand.ClosePath] : List PathCommand).tail
      = true := by
  constructor
  · exact C8_fill_first.1 10 "X0" (by decide) (by decide) (by decide)
  · exact (C8_fill_first.2 100 "F0M0,0Z"
      [PathCommand.SetFillRule .EvenOdd, PathCommand.MoveTo ⟨.val 0, .val 0⟩,
        PathCommand.ClosePath] (by decide)).1

end TsPath
